import Mathlib

/-!
Shallow embedding of the vote-budget validation and accumulation engine of the
bun-alpine community voting platform.

The ledger is the `votes` table: rows `{user_id, language_id, points, vote_month}`.
The `points` column is `INTEGER NOT NULL CHECK (points >= 1 AND points <= 5)`
(src/database/schema.ts), so stored points are modelled as `Int`; points arriving
in a request body are JavaScript numbers and are modelled as `ℚ`.
The `languages.total_votes` column is modelled as a function from language id to
`Int` (default 0, per the schema's `total_votes INTEGER DEFAULT 0`).
-/

/-- A row of the `votes` table. -/
structure Vote where
  user_id : Int
  language_id : Int
  points : Int
  vote_month : String
  deriving DecidableEq, Repr

/-- The JS `reduce((sum, vote) => sum + vote.points, 0)` over a list of vote rows;
also the SQL `COALESCE(SUM(points), 0)`. -/
def sumVotePoints (l : List Vote) : Int :=
  l.foldl (fun s v => s + v.points) 0

/-- Ordering used by `getUserMonthlyVotes`'s `ORDER BY points DESC`. -/
def voteOrder (a b : Vote) : Prop := b.points ≤ a.points

instance : DecidableRel voteOrder :=
  fun a b => inferInstanceAs (Decidable (b.points ≤ a.points))

/-- Source `voteQueries.getUserMonthlyVotes`:
`SELECT * FROM votes WHERE user_id = ? AND vote_month = ? ORDER BY points DESC`. -/
def getUserMonthlyVotes (votes : List Vote) (userId : Int) (month : String) : List Vote :=
  List.insertionSort voteOrder
    (votes.filter (fun v => decide (v.user_id = userId ∧ v.vote_month = month)))

/-- Result shape of `voteQueries.getUserMonthlyPoints`. -/
structure MonthlyPoints where
  total_points : Int
  votes_count : Int
  deriving DecidableEq, Repr

/-- Source `voteQueries.getUserMonthlyPoints`:
`SELECT COALESCE(SUM(points), 0) as total_points, COUNT(*) as votes_count
 FROM votes WHERE user_id = ? AND vote_month = ?`. -/
def getUserMonthlyPoints (votes : List Vote) (userId : Int) (month : String) : MonthlyPoints :=
  let rows := votes.filter (fun v => decide (v.user_id = userId ∧ v.vote_month = month))
  { total_points := sumVotePoints rows, votes_count := (rows.length : Int) }

/-- The per-language monthly sum computed inside `validateLanguageLimit`
(and again in the vote handler's success payload): filter the user's monthly
votes down to one language and reduce over `points`. -/
def userLanguageMonthlyPoints (votes : List Vote) (userId languageId : Int)
    (month : String) : Int :=
  let existingVotes := getUserMonthlyVotes votes userId month
  let languageVotes := existingVotes.filter (fun v => decide (v.language_id = languageId))
  sumVotePoints languageVotes

/-- The SQL `SELECT COALESCE(SUM(points), 0) FROM votes WHERE language_id = ?`
used both by `languageQueries.updateLanguageVotes` and by the
`update_language_total_votes` trigger (migration 002). -/
def langLifetimePoints (votes : List Vote) (languageId : Int) : Int :=
  ((votes.filter (fun v => decide (v.language_id = languageId))).map Vote.points).sum

/-- Shape of `VoteValidationResult` from src/services/voteService.ts
(`error?` is an optional string). -/
structure VoteValidationResult where
  isValid : Bool
  error : Option String
  deriving DecidableEq, Repr

/-- Source `validateBasicRules` (voteService.ts): reject when `points < 1 || points > 5`. -/
def validateBasicRules (points : ℚ) : VoteValidationResult :=
  if points < 1 ∨ points > 5 then
    { isValid := false, error := some "Points must be between 1 and 5" }
  else
    { isValid := true, error := none }

/-- Source `validateLanguageLimit` (voteService.ts): at most 5 points per language per month. -/
def validateLanguageLimit (votes : List Vote) (userId languageId : Int)
    (pointsToAdd : ℚ) (month : String) : VoteValidationResult :=
  let currentLanguagePoints := userLanguageMonthlyPoints votes userId languageId month
  if (currentLanguagePoints : ℚ) + pointsToAdd > 5 then
    let remaining := 5 - currentLanguagePoints
    { isValid := false,
      error := some s!"Cannot exceed 5 points per language. This language has {currentLanguagePoints} points, you can add {remaining} more." }
  else
    { isValid := true, error := none }

/-- Source `validateTotalPoints` (voteService.ts): at most 10 points per user per month. -/
def validateTotalPoints (votes : List Vote) (userId : Int)
    (pointsToAdd : ℚ) (month : String) : VoteValidationResult :=
  let monthlyPoints := getUserMonthlyPoints votes userId month
  if (monthlyPoints.total_points : ℚ) + pointsToAdd > 10 then
    let remaining := 10 - monthlyPoints.total_points
    { isValid := false,
      error := some s!"Not enough points remaining. You have {remaining} points left this month." }
  else
    { isValid := true, error := none }

/-- Source `validateAddVote` (voteService.ts): basic range check, then per-language
limit, then monthly total, short-circuiting on the first failure. -/
def validateAddVote (votes : List Vote) (userId languageId : Int)
    (pointsToAdd : ℚ) (month : String) : VoteValidationResult :=
  let basicValidation := validateBasicRules pointsToAdd
  if !basicValidation.isValid then
    basicValidation
  else
    let languageValidation := validateLanguageLimit votes userId languageId pointsToAdd month
    if !languageValidation.isValid then
      languageValidation
    else
      let totalValidation := validateTotalPoints votes userId pointsToAdd month
      if !totalValidation.isValid then
        totalValidation
      else
        { isValid := true, error := none }

/-! ## Server state and the POST /app/vote handler (index.ts) -/

/-- Server-side persistent state: the `votes` table plus the denormalized
`languages.total_votes` column (keyed by language id, `DEFAULT 0`). -/
structure ServerState where
  votes : List Vote
  total_votes : Int → Int

/-- Fresh database: no vote rows, every language's `total_votes` at its default 0. -/
def emptyState : ServerState := ⟨[], fun _ => 0⟩

/-- Source `voteQueries.addVote` / `insertVote` (`INSERT INTO votes ... RETURNING *`)
together with the `update_language_total_votes_trigger` (`AFTER INSERT ... FOR
EACH ROW`), which resets the inserted row's language total to
`COALESCE(SUM(points), 0)` over that language's rows. -/
def insertVoteRow (st : ServerState) (userId languageId points : Int)
    (month : String) : ServerState :=
  let votes' := st.votes ++ [⟨userId, languageId, points, month⟩]
  { votes := votes',
    total_votes := fun i =>
      if i = languageId then langLifetimePoints votes' languageId else st.total_votes i }

/-- Source `languageQueries.updateLanguageVotes`: recompute `SUM(points)` for the
language and write it to `languages.total_votes`. (`parseInt` of an integer
SQL sum is that integer.) -/
def updateLanguageVotes (st : ServerState) (languageId : Int) : ServerState × Int :=
  let total := langLifetimePoints st.votes languageId
  ({ votes := st.votes,
     total_votes := fun i => if i = languageId then total else st.total_votes i },
   total)

/-- The authenticated user attached to the request by the auth middleware. -/
structure AuthUser where
  userId : Int
  deriving DecidableEq, Repr

/-- The JSON body `{ languageId, points }`; a field is `none` when absent. -/
structure VoteBody where
  languageId : Option Int
  points : Option ℚ
  deriving DecidableEq, Repr

/-- Environment oracle for one database write attempt inside the handler's
`try` block: no infrastructure failure, a throw at the `INSERT`, or a throw
after the `INSERT` committed (during the recompute/read steps). -/
inductive WriteFault where
  | fnone
  | atInsert
  | afterInsert
  deriving DecidableEq, Repr

/-- One inbound vote request: the (possibly absent) authenticated user, the
body, the value of `dbUtils.getCurrentMonth()` at processing time, and the
oracle of write-attempt outcomes (the handler performs at most one attempt,
consuming the head). -/
structure Submission where
  user : Option AuthUser
  body : VoteBody
  month : String
  faults : List WriteFault

/-- JavaScript truthiness of `number | undefined`: `undefined` and `0` are falsy. -/
def jsTruthyInt : Option Int → Bool
  | some x => decide (x ≠ 0)
  | none => false

/-- JavaScript truthiness of `number | undefined` for the rational-valued field. -/
def jsTruthyRat : Option ℚ → Bool
  | some x => decide (x ≠ 0)
  | none => false

/-- JS rendering of the request's `points` number inside a template literal
(only integral values ever reach the success message). -/
def jsNumString (q : ℚ) : String :=
  if q.den = 1 then toString q.num else s!"{q.num}/{q.den}"

/-- Responses of the POST /app/vote handler. -/
inductive VoteResponse where
  /-- 401 `{ error: "Authentication required" }` -/
  | unauthorized
  /-- 400 `{ error }` (missing required fields, or a validation rejection
  carrying the validator's `error` untouched) -/
  | badRequest (error : Option String)
  /-- 200 success payload -/
  | success (message : String) (remaining_points : Int) (language_total_points : Int)
  /-- 500 `{ error }` from the `catch` block -/
  | serverError (error : String)
  deriving DecidableEq, Repr

/-- The HTTP status the handler sets for each response. -/
def VoteResponse.status : VoteResponse → Nat
  | .unauthorized => 401
  | .badRequest _ => 400
  | .success _ _ _ => 200
  | .serverError _ => 500

/-- The POST /app/vote handler (index.ts): auth guard, required-fields guard,
`validateAddVote`, then `try { addVote; updateLanguageVotes; recompute payload }
catch { 500 }`. The `INSERT` itself throws when the environment faults at the
insert or when the value violates the `points` column type/`CHECK`
(`INTEGER NOT NULL CHECK (points >= 1 AND points <= 5)`). -/
def handleVote (st : ServerState) (sub : Submission) : ServerState × VoteResponse :=
  match sub.user with
  | none => (st, .unauthorized)
  | some user =>
    if !jsTruthyInt sub.body.languageId || !jsTruthyRat sub.body.points then
      (st, .badRequest (some "languageId and points are required"))
    else
      let languageId := sub.body.languageId.getD 0
      let points := sub.body.points.getD 0
      let validation := validateAddVote st.votes user.userId languageId points sub.month
      if !validation.isValid then
        (st, .badRequest validation.error)
      else
        let fault := sub.faults.headD .fnone
        if fault = .atInsert ∨ ¬(points.den = 1 ∧ 1 ≤ points ∧ points ≤ 5) then
          (st, .serverError "Failed to record vote. Please try again.")
        else
          let st1 := insertVoteRow st user.userId languageId points.num sub.month
          if fault = .afterInsert then
            (st1, .serverError "Failed to record vote. Please try again.")
          else
            let st2 := (updateLanguageVotes st1 languageId).1
            let newMonthlyPoints := getUserMonthlyPoints st2.votes user.userId sub.month
            let remainingPoints := 10 - newMonthlyPoints.total_points
            let languagePoints :=
              userLanguageMonthlyPoints st2.votes user.userId languageId sub.month
            (st2,
             .success
               s!"Added {jsNumString points} points! Language now has {languagePoints} points."
               remainingPoints languagePoints)

/-- Sequential processing of vote submissions, threading the store state. -/
def processSubmissions (st : ServerState) (subs : List Submission) : ServerState :=
  subs.foldl (fun s sub => (handleVote s sub).1) st


/-! ## Aggregate normalization and append lemmas -/

theorem foldl_add_points (l : List Vote) (s : Int) :
    l.foldl (fun s v => s + v.points) s = s + (l.map Vote.points).sum := by
  induction l generalizing s with
  | nil => simp
  | cons hd tl ih => simp [List.foldl_cons, ih, add_assoc]

theorem sumVotePoints_eq (l : List Vote) :
    sumVotePoints l = (l.map Vote.points).sum := by
  simp [sumVotePoints, foldl_add_points]

theorem userLanguageMonthlyPoints_eq (votes : List Vote) (u l : Int) (m : String) :
    userLanguageMonthlyPoints votes u l m =
      ((votes.filter
          (fun v => decide (v.user_id = u ∧ v.vote_month = m ∧ v.language_id = l))).map
        Vote.points).sum := by
  unfold userLanguageMonthlyPoints getUserMonthlyVotes
  rw [sumVotePoints_eq]
  have hperm :=
    ((List.perm_insertionSort voteOrder
        (votes.filter (fun v => decide (v.user_id = u ∧ v.vote_month = m)))).filter
      (fun v => decide (v.language_id = l))).map Vote.points
  rw [hperm.sum_eq, List.filter_filter]
  have hfe : votes.filter
        (fun a => decide (a.language_id = l) && decide (a.user_id = u ∧ a.vote_month = m))
      = votes.filter (fun v => decide (v.user_id = u ∧ v.vote_month = m ∧ v.language_id = l)) := by
    apply List.filter_congr
    intro v _
    rw [← Bool.decide_and]
    exact decide_eq_decide.mpr (by tauto)
  rw [hfe]

theorem getUserMonthlyPoints_total_append (votes : List Vote) (r : Vote) (u : Int)
    (m : String) :
    (getUserMonthlyPoints (votes ++ [r]) u m).total_points =
      (getUserMonthlyPoints votes u m).total_points +
        (if r.user_id = u ∧ r.vote_month = m then r.points else 0) := by
  simp only [getUserMonthlyPoints, sumVotePoints_eq, List.filter_append]
  by_cases h : r.user_id = u ∧ r.vote_month = m <;> simp [h]

theorem userLanguageMonthlyPoints_append (votes : List Vote) (r : Vote) (u l : Int)
    (m : String) :
    userLanguageMonthlyPoints (votes ++ [r]) u l m =
      userLanguageMonthlyPoints votes u l m +
        (if r.user_id = u ∧ r.vote_month = m ∧ r.language_id = l then r.points else 0) := by
  simp only [userLanguageMonthlyPoints_eq, List.filter_append]
  by_cases h : r.user_id = u ∧ r.vote_month = m ∧ r.language_id = l <;> simp [h]

theorem langLifetimePoints_append (votes : List Vote) (r : Vote) (l : Int) :
    langLifetimePoints (votes ++ [r]) l =
      langLifetimePoints votes l + (if r.language_id = l then r.points else 0) := by
  simp only [langLifetimePoints, List.filter_append]
  by_cases h : r.language_id = l <;> simp [h]

/-! ## Validator characterizations -/

theorem validateBasicRules_isValid (p : ℚ) :
    (validateBasicRules p).isValid = true ↔ 1 ≤ p ∧ p ≤ 5 := by
  unfold validateBasicRules
  split_ifs with h
  · simp only [Bool.false_eq_true, false_iff, not_and]
    intro h1 h2
    rcases h with h | h <;> linarith
  · push_neg at h
    simpa using h

theorem validateLanguageLimit_isValid (votes : List Vote) (u l : Int) (p : ℚ)
    (m : String) :
    (validateLanguageLimit votes u l p m).isValid = true ↔
      (userLanguageMonthlyPoints votes u l m : ℚ) + p ≤ 5 := by
  unfold validateLanguageLimit
  dsimp only
  split_ifs with h
  · simp only [Bool.false_eq_true, false_iff]
    intro hc
    linarith
  · push_neg at h
    simpa using h

theorem validateTotalPoints_isValid (votes : List Vote) (u : Int) (p : ℚ) (m : String) :
    (validateTotalPoints votes u p m).isValid = true ↔
      ((getUserMonthlyPoints votes u m).total_points : ℚ) + p ≤ 10 := by
  unfold validateTotalPoints
  dsimp only
  split_ifs with h
  · simp only [Bool.false_eq_true, false_iff]
    intro hc
    linarith
  · push_neg at h
    simpa using h

theorem validateAddVote_isValid (votes : List Vote) (u l : Int) (p : ℚ) (m : String) :
    (validateAddVote votes u l p m).isValid = true ↔
      (1 ≤ p ∧ p ≤ 5 ∧ (userLanguageMonthlyPoints votes u l m : ℚ) + p ≤ 5 ∧
        ((getUserMonthlyPoints votes u m).total_points : ℚ) + p ≤ 10) := by
  by_cases c1 : 1 ≤ p ∧ p ≤ 5
  · have h1 : (validateBasicRules p).isValid = true :=
      (validateBasicRules_isValid p).mpr c1
    by_cases c2 : (userLanguageMonthlyPoints votes u l m : ℚ) + p ≤ 5
    · have h2 : (validateLanguageLimit votes u l p m).isValid = true :=
        (validateLanguageLimit_isValid votes u l p m).mpr c2
      by_cases c3 : ((getUserMonthlyPoints votes u m).total_points : ℚ) + p ≤ 10
      · have h3 : (validateTotalPoints votes u p m).isValid = true :=
          (validateTotalPoints_isValid votes u p m).mpr c3
        have hres : (validateAddVote votes u l p m).isValid = true := by
          simp [validateAddVote, h1, h2, h3]
        rw [hres]
        simpa using ⟨c1.1, c1.2, c2, c3⟩
      · have h3 : (validateTotalPoints votes u p m).isValid = false := by
          cases hf : (validateTotalPoints votes u p m).isValid
          · rfl
          · exact absurd ((validateTotalPoints_isValid votes u p m).mp hf) c3
        have hres : (validateAddVote votes u l p m).isValid = false := by
          simp [validateAddVote, h1, h2, h3]
        rw [hres]
        simp only [Bool.false_eq_true, false_iff]
        intro hR
        exact c3 hR.2.2.2
    · have h2 : (validateLanguageLimit votes u l p m).isValid = false := by
        cases hf : (validateLanguageLimit votes u l p m).isValid
        · rfl
        · exact absurd ((validateLanguageLimit_isValid votes u l p m).mp hf) c2
      have hres : (validateAddVote votes u l p m).isValid = false := by
        simp [validateAddVote, h1, h2]
      rw [hres]
      simp only [Bool.false_eq_true, false_iff]
      intro hR
      exact c2 hR.2.2.1
  · have h1 : (validateBasicRules p).isValid = false := by
      cases hf : (validateBasicRules p).isValid
      · rfl
      · exact absurd ((validateBasicRules_isValid p).mp hf) c1
    have hres : (validateAddVote votes u l p m).isValid = false := by
      simp [validateAddVote, h1]
    rw [hres]
    simp only [Bool.false_eq_true, false_iff]
    intro hR
    exact c1 ⟨hR.1, hR.2.1⟩

theorem validateAddVote_out_of_range (votes : List Vote) (u l : Int) (p : ℚ)
    (m : String) (h : p < 1 ∨ 5 < p) :
    validateAddVote votes u l p m =
      { isValid := false, error := some "Points must be between 1 and 5" } := by
  have hb : validateBasicRules p =
      { isValid := false, error := some "Points must be between 1 and 5" } := by
    unfold validateBasicRules
    rw [if_pos h]
  simp [validateAddVote, hb]

/-! ## The budget/aggregate invariant and its preservation -/

/-- The consistency contract of the store: every user's monthly total is within
the 10-point budget, every per-language monthly total is within the 5-point cap,
and each language's denormalized `total_votes` equals the ledger sum. -/
def StateConsistent (st : ServerState) : Prop :=
  (∀ u m, (getUserMonthlyPoints st.votes u m).total_points ≤ 10) ∧
  (∀ u l m, userLanguageMonthlyPoints st.votes u l m ≤ 5) ∧
  (∀ l, st.total_votes l = langLifetimePoints st.votes l)

theorem stateConsistent_empty : StateConsistent emptyState := by
  refine ⟨?_, ?_, ?_⟩ <;> intros <;>
    simp [emptyState, getUserMonthlyPoints, userLanguageMonthlyPoints_eq,
      langLifetimePoints, sumVotePoints_eq]

theorem stateConsistent_updateLanguageVotes (st : ServerState) (l : Int)
    (h : StateConsistent st) : StateConsistent (updateLanguageVotes st l).1 := by
  obtain ⟨h10, h5, htot⟩ := h
  refine ⟨h10, h5, ?_⟩
  intro i
  by_cases hi : i = l <;> simp [updateLanguageVotes, hi, htot i]

theorem stateConsistent_insert (st : ServerState) (u l : Int) (p : ℚ) (m : String)
    (h : StateConsistent st)
    (hval : (validateAddVote st.votes u l p m).isValid = true)
    (hden : p.den = 1) :
    StateConsistent (insertVoteRow st u l p.num m) := by
  obtain ⟨h10, h5, htot⟩ := h
  obtain ⟨hp1, hp5, hcl, hcm⟩ := (validateAddVote_isValid st.votes u l p m).mp hval
  have hpnum : (p.num : ℚ) = p := Rat.coe_int_num_of_den_eq_one hden
  refine ⟨?_, ?_, ?_⟩
  · intro u' m'
    show (getUserMonthlyPoints (st.votes ++ [⟨u, l, p.num, m⟩]) u' m').total_points ≤ 10
    rw [getUserMonthlyPoints_total_append]
    by_cases hm : (Vote.mk u l p.num m).user_id = u' ∧ (Vote.mk u l p.num m).vote_month = m'
    · rw [if_pos hm]
      obtain ⟨hmu, hmm⟩ := hm
      simp only at hmu hmm
      subst hmu hmm
      have : ((getUserMonthlyPoints st.votes u m).total_points : ℚ) + (p.num : ℚ) ≤ 10 := by
        rw [hpnum]; exact hcm
      exact_mod_cast this
    · rw [if_neg hm, add_zero]
      exact h10 u' m'
  · intro u' l' m'
    show userLanguageMonthlyPoints (st.votes ++ [⟨u, l, p.num, m⟩]) u' l' m' ≤ 5
    rw [userLanguageMonthlyPoints_append]
    by_cases hm : (Vote.mk u l p.num m).user_id = u' ∧
        (Vote.mk u l p.num m).vote_month = m' ∧ (Vote.mk u l p.num m).language_id = l'
    · rw [if_pos hm]
      obtain ⟨hmu, hmm, hml⟩ := hm
      simp only at hmu hmm hml
      subst hmu hmm hml
      have : ((userLanguageMonthlyPoints st.votes u l m : Int) : ℚ) + (p.num : ℚ) ≤ 5 := by
        rw [hpnum]; exact hcl
      exact_mod_cast this
    · rw [if_neg hm, add_zero]
      exact h5 u' l' m'
  · intro i
    by_cases hi : i = l
    · subst hi
      simp [insertVoteRow]
    · show (if i = l then _ else st.total_votes i) =
        langLifetimePoints (st.votes ++ [⟨u, l, p.num, m⟩]) i
      rw [if_neg hi, langLifetimePoints_append, htot i]
      simp only
      rw [if_neg (fun hc => hi hc.symm), add_zero]

theorem handleVote_preserves (st : ServerState) (sub : Submission)
    (h : StateConsistent st) : StateConsistent (handleVote st sub).1 := by
  obtain ⟨uo, body, month, faults⟩ := sub
  cases uo with
  | none => exact h
  | some user =>
    unfold handleVote
    dsimp only
    split_ifs with hg hv hf hfa
    · exact h
    · exact h
    · exact h
    · have hval : (validateAddVote st.votes user.userId (body.languageId.getD 0)
          (body.points.getD 0) month).isValid = true := by
        revert hv
        cases (validateAddVote st.votes user.userId (body.languageId.getD 0)
          (body.points.getD 0) month).isValid <;> simp
      push_neg at hf
      exact stateConsistent_insert st user.userId (body.languageId.getD 0)
        (body.points.getD 0) month h hval hf.2.1
    · have hval : (validateAddVote st.votes user.userId (body.languageId.getD 0)
          (body.points.getD 0) month).isValid = true := by
        revert hv
        cases (validateAddVote st.votes user.userId (body.languageId.getD 0)
          (body.points.getD 0) month).isValid <;> simp
      push_neg at hf
      exact stateConsistent_updateLanguageVotes _ _
        (stateConsistent_insert st user.userId (body.languageId.getD 0)
          (body.points.getD 0) month h hval hf.2.1)

theorem stateConsistent_process (st : ServerState) (subs : List Submission)
    (h : StateConsistent st) : StateConsistent (processSubmissions st subs) := by
  induction subs generalizing st with
  | nil => exact h
  | cons s rest ih =>
    have hstep : processSubmissions st (s :: rest) =
        processSubmissions (handleVote st s).1 rest := rfl
    rw [hstep]
    exact ih _ (handleVote_preserves st s h)

/-! ## Claim theorems -/

/-- C1: for every user `u` and month `m`, starting from an empty ledger, after
any sequence of vote submissions processed sequentially through the vote
endpoint, the sum of points over `u`'s vote rows with `vote_month = m` is at
most 10. -/
theorem monthly_budget_invariant (subs : List Submission) (u : Int) (m : String) :
    (getUserMonthlyPoints (processSubmissions emptyState subs).votes u m).total_points ≤ 10 :=
  (stateConsistent_process emptyState subs stateConsistent_empty).1 u m

/-- C2: for every user `u`, language `l` and month `m`, starting from an empty
ledger, after any sequence of vote submissions processed sequentially through
the vote endpoint, the sum of points over `u`'s vote rows for `l` with
`vote_month = m` is at most 5. -/
theorem language_cap_invariant (subs : List Submission) (u l : Int) (m : String) :
    userLanguageMonthlyPoints (processSubmissions emptyState subs).votes u l m ≤ 5 :=
  (stateConsistent_process emptyState subs stateConsistent_empty).2.1 u l m

/-- C6: in every state reachable from the empty ledger through the vote
endpoint (in particular after each accepted submission completes), every
language's `total_votes` column equals the sum of points over all vote rows
for that language, across all users and all months. -/
theorem total_votes_matches_ledger (subs : List Submission) (l : Int) :
    (processSubmissions emptyState subs).total_votes l =
      langLifetimePoints (processSubmissions emptyState subs).votes l :=
  (stateConsistent_process emptyState subs stateConsistent_empty).2.2 l

/-- C3: for an integer `p` with `1 ≤ p ≤ 5`, `validateAddVote` accepts iff both
post-addition caps hold (`ci + p ≤ 5` per language and `cm + p ≤ 10` per
month); adding exactly the remaining headroom is accepted and one more unit
than the headroom is rejected. -/
theorem validateAddVote_accepts_iff_caps (votes : List Vote) (u l : Int) (m : String)
    (p : Int) (hp1 : 1 ≤ p) (hp5 : p ≤ 5) :
    ((validateAddVote votes u l (p : ℚ) m).isValid = true ↔
      (userLanguageMonthlyPoints votes u l m + p ≤ 5 ∧
        (getUserMonthlyPoints votes u m).total_points + p ≤ 10)) ∧
    (p = 5 - userLanguageMonthlyPoints votes u l m →
      (getUserMonthlyPoints votes u m).total_points + p ≤ 10 →
      (validateAddVote votes u l (p : ℚ) m).isValid = true) ∧
    (p = 10 - (getUserMonthlyPoints votes u m).total_points →
      userLanguageMonthlyPoints votes u l m + p ≤ 5 →
      (validateAddVote votes u l (p : ℚ) m).isValid = true) ∧
    (p = 5 - userLanguageMonthlyPoints votes u l m + 1 →
      (validateAddVote votes u l (p : ℚ) m).isValid = false) ∧
    (p = 10 - (getUserMonthlyPoints votes u m).total_points + 1 →
      (validateAddVote votes u l (p : ℚ) m).isValid = false) := by
  have key := validateAddVote_isValid votes u l (p : ℚ) m
  have h1q : (1 : ℚ) ≤ (p : ℚ) := by exact_mod_cast hp1
  have h5q : (p : ℚ) ≤ 5 := by exact_mod_cast hp5
  have hiff : (validateAddVote votes u l (p : ℚ) m).isValid = true ↔
      (userLanguageMonthlyPoints votes u l m + p ≤ 5 ∧
        (getUserMonthlyPoints votes u m).total_points + p ≤ 10) := by
    rw [key]
    constructor
    · rintro ⟨_, _, hc1, hc2⟩
      exact ⟨by exact_mod_cast hc1, by exact_mod_cast hc2⟩
    · rintro ⟨hc1, hc2⟩
      exact ⟨h1q, h5q, by exact_mod_cast hc1, by exact_mod_cast hc2⟩
  refine ⟨hiff, ?_, ?_, ?_, ?_⟩
  · intro hpe hcm
    exact hiff.mpr ⟨by omega, hcm⟩
  · intro hpe hci
    exact hiff.mpr ⟨hci, by omega⟩
  · intro hpe
    have hc : ¬(userLanguageMonthlyPoints votes u l m + p ≤ 5 ∧
        (getUserMonthlyPoints votes u m).total_points + p ≤ 10) := by omega
    cases hb : (validateAddVote votes u l (p : ℚ) m).isValid
    · rfl
    · exact absurd (hiff.mp hb) hc
  · intro hpe
    have hc : ¬(userLanguageMonthlyPoints votes u l m + p ≤ 5 ∧
        (getUserMonthlyPoints votes u m).total_points + p ≤ 10) := by omega
    cases hb : (validateAddVote votes u l (p : ℚ) m).isValid
    · rfl
    · exact absurd (hiff.mp hb) hc

/-- C3 witness: a user with 8 points used (5 on language 1, 3 on language 2)
adds exactly the monthly headroom 2 on language 3 and is accepted. -/
theorem validateAddVote_accepts_iff_caps_witness :
    (validateAddVote [⟨1, 1, 5, "2025-01"⟩, ⟨1, 2, 3, "2025-01"⟩] 1 3 ((2 : Int) : ℚ)
      "2025-01").isValid = true :=
  (validateAddVote_accepts_iff_caps [⟨1, 1, 5, "2025-01"⟩, ⟨1, 2, 3, "2025-01"⟩] 1 3
      "2025-01" 2 (by decide) (by decide)).2.2.1 (by decide) (by decide)

/-- C4 counterexample: the non-integer request 2.5 is NOT rejected by
`validateAddVote` at all (it passes the `points < 1 || points > 5` range
check and, on an empty ledger, both caps), contradicting the claim that every
non-integer value is rejected with the range reason. -/
theorem validateAddVote_accepts_two_point_five :
    validateAddVote [] 1 1 (5 / 2) "2025-01" = { isValid := true, error := none } := by
  with_unfolding_all decide

/-- C4 (amended): every `pointsToAdd` below 1 or above 5 is rejected by
`validateAddVote` with exactly the range reason "Points must be between 1 and
5" (never a cap reason), for every ledger state; non-integer values inside
[1, 5] pass the range check. -/
theorem validateAddVote_range_reason :
    (∀ (votes : List Vote) (u l : Int) (p : ℚ) (m : String), p < 1 ∨ 5 < p →
      validateAddVote votes u l p m =
        { isValid := false, error := some "Points must be between 1 and 5" }) ∧
    (∀ p : ℚ, 1 ≤ p → p ≤ 5 → validateBasicRules p = { isValid := true, error := none }) := by
  constructor
  · exact fun votes u l p m h => validateAddVote_out_of_range votes u l p m h
  · intro p h1 h2
    unfold validateBasicRules
    rw [if_neg]
    rintro (h | h) <;> linarith

/-- C4 witness: 6 points is rejected with the range reason even on a ledger
where the per-language cap would also be violated, and the non-integer 2.5
passes the range check. -/
theorem validateAddVote_range_reason_witness :
    validateAddVote [⟨1, 1, 5, "2025-01"⟩] 1 1 6 "2025-01"
        = { isValid := false, error := some "Points must be between 1 and 5" } ∧
      validateBasicRules (5 / 2) = { isValid := true, error := none } :=
  ⟨validateAddVote_range_reason.1 [⟨1, 1, 5, "2025-01"⟩] 1 1 6 "2025-01" (by norm_num),
   validateAddVote_range_reason.2 (5 / 2) (by norm_num) (by norm_num)⟩

/-- C5: whenever `validateAddVote` rejects, the vote endpoint returns a 400
failure carrying the validator's `error` verbatim, and the store state is
unchanged (no vote row appended, no language total updated). -/
theorem rejection_verbatim_no_write (st : ServerState) (user : AuthUser)
    (lid : Int) (p : ℚ) (month : String) (faults : List WriteFault)
    (hlid : lid ≠ 0) (hp : p ≠ 0)
    (hinv : (validateAddVote st.votes user.userId lid p month).isValid = false) :
    handleVote st ⟨some user, ⟨some lid, some p⟩, month, faults⟩ =
      (st, .badRequest (validateAddVote st.votes user.userId lid p month).error) := by
  unfold handleVote
  dsimp only
  have hg : (!jsTruthyInt (some lid) || !jsTruthyRat (some p)) = false := by
    simp [jsTruthyInt, jsTruthyRat, hlid, hp]
  simp [hg, hinv]

/-- C5 witness: with 5 points already on language 1, one more point is
rejected and the endpoint surfaces the validator's per-language message
verbatim, leaving the state unchanged. -/
theorem rejection_verbatim_no_write_witness :
    handleVote ⟨[⟨1, 1, 5, "2025-01"⟩], fun _ => 0⟩
        ⟨some ⟨1⟩, ⟨some 1, some 1⟩, "2025-01", []⟩ =
      (⟨[⟨1, 1, 5, "2025-01"⟩], fun _ => 0⟩,
       .badRequest (some "Cannot exceed 5 points per language. This language has 5 points, you can add 0 more.")) := by
  have h := rejection_verbatim_no_write ⟨[⟨1, 1, 5, "2025-01"⟩], fun _ => 0⟩ ⟨1⟩ 1 1
    "2025-01" [] (by decide) (by decide) (by with_unfolding_all decide)
  rw [h]
  have herr : (validateAddVote [⟨1, 1, 5, "2025-01"⟩] (AuthUser.mk 1).userId 1 1
        "2025-01").error =
      some "Cannot exceed 5 points per language. This language has 5 points, you can add 0 more." := by
    with_unfolding_all decide
  rw [herr]

/-- C9 counterexample: on write-attempt outcomes `[throw, ok]` — the first
attempt fails, a retried attempt would succeed — the handler surfaces the
generic 500 failure with nothing written, instead of retrying: the remaining
successful outcome is never consumed, while the same submission with a first
successful outcome returns 200. -/
theorem no_internal_retry_counterexample :
    handleVote emptyState ⟨some ⟨1⟩, ⟨some 1, some 3⟩, "2025-01",
        [.atInsert, .fnone]⟩ =
      (emptyState, .serverError "Failed to record vote. Please try again.") ∧
    (handleVote emptyState ⟨some ⟨1⟩, ⟨some 1, some 3⟩, "2025-01", [.fnone]⟩).2.status
      = 200 :=
  ⟨by with_unfolding_all rfl, by with_unfolding_all decide⟩

/-- C9 (amended): when the ledger write fails after validation passed, the
handler surfaces the generic "Failed to record vote. Please try again." 500
error immediately, with no internal retry and no write; this error kind is
distinct from a validation rejection (a 400 `badRequest`). -/
theorem write_failure_generic_error_no_retry (st : ServerState) (user : AuthUser)
    (lid : Int) (p : ℚ) (month : String) (rest : List WriteFault)
    (hlid : lid ≠ 0) (hp : p ≠ 0)
    (hval : (validateAddVote st.votes user.userId lid p month).isValid = true) :
    handleVote st ⟨some user, ⟨some lid, some p⟩, month, .atInsert :: rest⟩ =
      (st, .serverError "Failed to record vote. Please try again.") ∧
    (∀ e, VoteResponse.serverError "Failed to record vote. Please try again."
      ≠ .badRequest e) ∧
    (VoteResponse.serverError "Failed to record vote. Please try again.").status = 500 := by
  refine ⟨?_, ?_, rfl⟩
  · unfold handleVote
    dsimp only
    have hg : (!jsTruthyInt (some lid) || !jsTruthyRat (some p)) = false := by
      simp [jsTruthyInt, jsTruthyRat, hlid, hp]
    simp [hg, hval]
  · intro e h
    cases h

/-- C9 witness: a concrete valid submission whose single write attempt throws
is answered with the generic 500 error and no state change. -/
theorem write_failure_generic_error_no_retry_witness :
    handleVote emptyState ⟨some ⟨1⟩, ⟨some 2, some 4⟩, "2025-02",
        [.atInsert]⟩ =
      (emptyState, .serverError "Failed to record vote. Please try again.") :=
  (write_failure_generic_error_no_retry emptyState ⟨1⟩ 2 4 "2025-02" []
    (by decide) (by decide) (by with_unfolding_all decide)).1

/-- C10: an authenticated request whose `points` is 0 or missing (or whose
`languageId` is 0 or missing) is rejected with the 400 error "languageId and
points are required" before the validator runs — the ledger state is
untouched and the message is not the range reason. -/
theorem missing_fields_guard (st : ServerState) (user : AuthUser) (body : VoteBody)
    (month : String) (faults : List WriteFault)
    (h : body.points = none ∨ body.points = some 0 ∨
         body.languageId = none ∨ body.languageId = some 0) :
    handleVote st ⟨some user, body, month, faults⟩ =
      (st, .badRequest (some "languageId and points are required")) ∧
    (some "languageId and points are required" : Option String)
      ≠ some "Points must be between 1 and 5" := by
  constructor
  · have hg : (!jsTruthyInt body.languageId || !jsTruthyRat body.points) = true := by
      rcases h with h | h | h | h <;> simp [jsTruthyInt, jsTruthyRat, h]
    unfold handleVote
    dsimp only
    simp [hg]
  · decide

/-- C10 witness: an authenticated zero-point request for language 1 gets the
required-fields error and changes nothing, even on the empty ledger. -/
theorem missing_fields_guard_witness :
    handleVote emptyState ⟨some ⟨1⟩, ⟨some 1, some 0⟩, "2025-01", []⟩ =
      (emptyState, .badRequest (some "languageId and points are required")) :=
  (missing_fields_guard emptyState ⟨1⟩ ⟨some 1, some 0⟩ "2025-01" []
    (Or.inr (Or.inl rfl))).1

/-! ## GET /app/user/votes handler (index.ts) -/

/-- Response of the GET /app/user/votes handler; `votePoints` is the
`Record<number, number>` built by the handler. -/
structure UserVotesResponse where
  votePoints : Int → Option Int
  totalPoints : Int
  remainingPoints : Int
  votesCount : Int
  month : String

/-- The GET /app/user/votes handler: reads the user's monthly vote rows and
monthly totals, then builds `votePoints` with
`votes.forEach(vote => { votePoints[vote.language_id] = vote.points })` —
each row ASSIGNS (not adds) its points under its language key. -/
def getUserVotesHandler (st : ServerState) (user : AuthUser) (month : String) :
    UserVotesResponse :=
  let votes := getUserMonthlyVotes st.votes user.userId month
  let monthlyPoints := getUserMonthlyPoints st.votes user.userId month
  let votePoints : Int → Option Int :=
    votes.foldl (fun acc v => fun i => if i = v.language_id then some v.points else acc i)
      (fun _ => none)
  { votePoints := votePoints
    totalPoints := monthlyPoints.total_points
    remainingPoints := 10 - monthlyPoints.total_points
    votesCount := monthlyPoints.votes_count
    month := month }

/-- C7 (failing input): user 1 tops language 1 up twice (3 points then 2) in
"2025-01", both accepted through the vote endpoint. The read handler then
reports `votePoints[1] = 2` — the points of a single row, not the accumulated
total — while the very same response's `totalPoints` is the true sum 5, as is
the ledger's per-language sum. `remainingPoints` is 10 - 5 = 5. -/
theorem user_votes_read_not_cumulative :
    (getUserVotesHandler
        (processSubmissions emptyState
          [⟨some ⟨1⟩, ⟨some 1, some 3⟩, "2025-01", []⟩,
           ⟨some ⟨1⟩, ⟨some 1, some 2⟩, "2025-01", []⟩])
        ⟨1⟩ "2025-01").votePoints 1 = some 2 ∧
    (getUserVotesHandler
        (processSubmissions emptyState
          [⟨some ⟨1⟩, ⟨some 1, some 3⟩, "2025-01", []⟩,
           ⟨some ⟨1⟩, ⟨some 1, some 2⟩, "2025-01", []⟩])
        ⟨1⟩ "2025-01").totalPoints = 5 ∧
    (getUserVotesHandler
        (processSubmissions emptyState
          [⟨some ⟨1⟩, ⟨some 1, some 3⟩, "2025-01", []⟩,
           ⟨some ⟨1⟩, ⟨some 1, some 2⟩, "2025-01", []⟩])
        ⟨1⟩ "2025-01").remainingPoints = 5 ∧
    userLanguageMonthlyPoints
        (processSubmissions emptyState
          [⟨some ⟨1⟩, ⟨some 1, some 3⟩, "2025-01", []⟩,
           ⟨some ⟨1⟩, ⟨some 1, some 2⟩, "2025-01", []⟩]).votes
        1 1 "2025-01" = 5 := by
  refine ⟨?_, ?_, ?_, ?_⟩ <;> with_unfolding_all decide

/-! ## Ranking projector (queries.ts) -/

/-- A row of the `languages` table as read by the ranking queries. -/
structure LangRow where
  id : Int
  name : String
  total_votes : Int
  deriving DecidableEq, Repr

/-- The `ORDER BY total_votes DESC, name ASC` ordering on language rows. -/
def rankOrder (a b : LangRow) : Prop :=
  b.total_votes < a.total_votes ∨ (a.total_votes = b.total_votes ∧ a.name ≤ b.name)

instance : DecidableRel rankOrder :=
  fun a b =>
    inferInstanceAs
      (Decidable (b.total_votes < a.total_votes ∨
        (a.total_votes = b.total_votes ∧ a.name ≤ b.name)))

instance : IsTotal LangRow rankOrder :=
  ⟨by
    intro a b
    rcases lt_trichotomy a.total_votes b.total_votes with h | h | h
    · exact Or.inr (Or.inl h)
    · rcases le_total a.name b.name with hn | hn
      · exact Or.inl (Or.inr ⟨h, hn⟩)
      · exact Or.inr (Or.inr ⟨h.symm, hn⟩)
    · exact Or.inl (Or.inl h)⟩

instance : IsTrans LangRow rankOrder :=
  ⟨by
    intro a b c hab hbc
    rcases hab with h1 | ⟨h1, hn1⟩ <;> rcases hbc with h2 | ⟨h2, hn2⟩
    · exact Or.inl (by omega)
    · exact Or.inl (by omega)
    · exact Or.inl (by omega)
    · exact Or.inr ⟨by omega, le_trans hn1 hn2⟩⟩

/-- Source `languageQueries.getAllLanguagesRanked`:
`SELECT * FROM languages ORDER BY total_votes DESC, name ASC`. -/
def getAllLanguagesRanked (ls : List LangRow) : List LangRow :=
  List.insertionSort rankOrder ls

/-- Source `dbUtils.getTopRankingWithStats`: the same ordering with
`ROW_NUMBER() OVER (ORDER BY l.total_votes DESC, l.name ASC) as rank_position`
and `LIMIT ?` — 1-based rank assigned by output position. -/
def getTopRankingWithStats (ls : List LangRow) (limit : Nat) : List (LangRow × Nat) :=
  (((getAllLanguagesRanked ls).enum).map (fun p => (p.2, p.1 + 1))).take limit

/-- C8: the ranking output is the catalog sorted by total points descending
with ties broken by name ascending, rank numbers are 1-based output positions
(row-number ranking), and on the catalog A(10), B(10), C(7) with A before B
lexicographically the output is [A rank 1, B rank 2, C rank 3], never
[B, A, C]. -/
theorem ranking_sorted_positional :
    (∀ ls : List LangRow, List.Sorted rankOrder (getAllLanguagesRanked ls)) ∧
    (∀ ls : List LangRow, (getAllLanguagesRanked ls).Perm ls) ∧
    (∀ (ls : List LangRow) (limit : Nat),
      (getTopRankingWithStats ls limit).map Prod.snd =
        ((List.range ls.length).map (fun i => i + 1)).take limit) ∧
    getTopRankingWithStats [⟨2, "B", 10⟩, ⟨1, "A", 10⟩, ⟨3, "C", 7⟩] 20 =
      [(⟨1, "A", 10⟩, 1), (⟨2, "B", 10⟩, 2), (⟨3, "C", 7⟩, 3)] := by
  refine ⟨?_, ?_, ?_, ?_⟩
  · exact fun ls => List.sorted_insertionSort rankOrder ls
  · exact fun ls => List.perm_insertionSort rankOrder ls
  · intro ls limit
    have hlen : (getAllLanguagesRanked ls).length = ls.length :=
      (List.perm_insertionSort rankOrder ls).length_eq
    simp only [getTopRankingWithStats, List.map_take, List.map_map]
    rw [← hlen, ← List.enum_map_fst (getAllLanguagesRanked ls), List.map_map]
    rfl
  · with_unfolding_all decide
